import Mathlib

/-!
Shallow embedding of `redis-cli.go` (Agilicus/redis-cli): the REPL command
tokenizer, history masking, the two reply renderers, renderer-mode
switching, and the command-dispatch path `cliSendCommand` /
`noninteractive`, together with theorems settling the specification's
claims about them.  Definitions follow the Go source; machine integers
(Go `int` / `int64`) are modelled as `Int` with explicit two's-complement
bounds where the source's behaviour depends on them.
-/

/-- The single-quote character (written via its code point to keep the
source free of stray quote characters). -/
def squote : Char := Char.ofNat 39

/-- The double-quote character. -/
def dquote : Char := Char.ofNat 34

/-- Go `strings.ToLower`, restricted to ASCII case mapping (all strings the
program compares with it are ASCII command words). -/
def toLowerStr (s : String) : String := String.mk (s.data.map Char.toLower)

/-- Whitespace class of Go regexp `\s`: tab, newline, form feed, carriage
return and space. -/
def isGoSpace (c : Char) : Bool :=
  c = Char.ofNat 9 || c = Char.ofNat 10 || c = Char.ofNat 12 ||
    c = Char.ofNat 13 || c = ' '

/-- Scan for the first closing quote `q`, modelling the lazy body of the
quoted-token alternatives `'.*?'` and `".*?"` of the REPL tokenizing regexp
`'.*?'|".*?"|\S+` (redis-cli.go line 80).  Go `.` does not match a newline,
so the scan fails at one.  On success the result is the span up to and
including the closing quote together with the remaining characters. -/
def findClose (q : Char) : List Char → Option (List Char × List Char)
  | [] => none
  | c :: cs =>
    if c = q then some ([q], cs)
    else if c = Char.ofNat 10 then none
    else
      match findClose q cs with
      | some (sp, rest) => some (c :: sp, rest)
      | none => none

theorem findClose_rest_lt (q : Char) (cs : List Char) :
    ∀ sp rest, findClose q cs = some (sp, rest) → rest.length < cs.length := by
  induction cs with
  | nil => intro sp rest h; simp [findClose] at h
  | cons c cs ih =>
    intro sp rest h
    rw [findClose] at h
    by_cases hc : c = q
    · rw [if_pos hc] at h
      cases h
      simp
    · rw [if_neg hc] at h
      by_cases hn : c = Char.ofNat 10
      · rw [if_pos hn] at h; cases h
      · rw [if_neg hn] at h
        cases hfc : findClose q cs with
        | none => rw [hfc] at h; cases h
        | some pr =>
          obtain ⟨sp1, rest1⟩ := pr
          rw [hfc] at h
          cases h
          have := ih _ _ hfc
          simp only [List.length_cons]
          omega

theorem findClose_last (q : Char) (cs : List Char) :
    ∀ sp rest, findClose q cs = some (sp, rest) →
      sp ≠ [] ∧ sp.getLast? = some q := by
  induction cs with
  | nil => intro sp rest h; simp [findClose] at h
  | cons c cs ih =>
    intro sp rest h
    rw [findClose] at h
    by_cases hc : c = q
    · rw [if_pos hc] at h
      cases h
      exact ⟨by simp, by simp⟩
    · rw [if_neg hc] at h
      by_cases hn : c = Char.ofNat 10
      · rw [if_pos hn] at h; cases h
      · rw [if_neg hn] at h
        cases hfc : findClose q cs with
        | none => rw [hfc] at h; cases h
        | some pr =>
          obtain ⟨sp1, rest1⟩ := pr
          rw [hfc] at h
          cases h
          obtain ⟨hne, hlast⟩ := ih _ _ hfc
          refine ⟨by simp, ?_⟩
          cases sp1 with
          | nil => exact absurd rfl hne
          | cons d ds => simpa using hlast

theorem length_dropWhile_le (p : Char → Bool) (l : List Char) :
    (l.dropWhile p).length ≤ l.length := by
  induction l with
  | nil => simp
  | cons c cs ih =>
    rw [List.dropWhile]
    cases hp : p c
    · simp
    · simpa using Nat.le_succ_of_le ih

/-- One pass of Go `regexp.FindAllString` for the pattern
`'.*?'|".*?"|\S+` (redis-cli.go lines 80 and 103): a whitespace character
cannot start a match; a quote character starts a quoted span when a lazy
matching close exists, and otherwise falls back to the greedy
non-whitespace run; any other non-whitespace character starts a greedy
non-whitespace run. -/
def tokenizeAux : List Char → List (List Char)
  | [] => []
  | c :: cs =>
    if isGoSpace c then tokenizeAux cs
    else if c = squote ∨ c = dquote then
      match hfc : findClose c cs with
      | some (sp, rest) => (c :: sp) :: tokenizeAux rest
      | none =>
        (c :: cs.takeWhile (fun d => !isGoSpace d)) ::
          tokenizeAux (cs.dropWhile (fun d => !isGoSpace d))
    else
      (c :: cs.takeWhile (fun d => !isGoSpace d)) ::
        tokenizeAux (cs.dropWhile (fun d => !isGoSpace d))
termination_by l => l.length
decreasing_by
  all_goals
    try simp only [List.length_cons]
    first
      | omega
      | (have hlt := findClose_rest_lt c cs sp rest hfc; omega)
      | (have hdw := length_dropWhile_le (fun d => !isGoSpace d) cs; omega)

/-- The REPL tokenizer `reg.FindAllString(cmd, -1)` (redis-cli.go
line 103), as strings. -/
def tokenize (s : String) : List String :=
  (tokenizeAux s.data).map (fun t => String.mk t)

/-- Splitting a line into its maximal runs of non-whitespace characters
(the behaviour of the tokenizing regexp when no quote character occurs). -/
def splitNonSpace : List Char → List (List Char)
  | [] => []
  | c :: cs =>
    if isGoSpace c then splitNonSpace cs
    else
      (c :: cs.takeWhile (fun d => !isGoSpace d)) ::
        splitNonSpace (cs.dropWhile (fun d => !isGoSpace d))
termination_by l => l.length
decreasing_by
  all_goals
    try simp only [List.length_cons]
    first
      | omega
      | (have hdw := length_dropWhile_le (fun d => !isGoSpace d) cs; omega)

/-- Token shape produced by the tokenizer: a token is non-empty and is
either a quoted span (first and last character the same quote character,
retained) or a run of non-whitespace characters. -/
def goodToken (t : List Char) : Prop :=
  t ≠ [] ∧
    ((t.head? = t.getLast? ∧ (t.head? = some squote ∨ t.head? = some dquote) ∧
        2 ≤ t.length) ∨
      (∀ c ∈ t, isGoSpace c = false))

theorem run_goodToken (c : Char) (cs : List Char) (hsp : ¬ isGoSpace c = true) :
    goodToken (c :: cs.takeWhile (fun d => !isGoSpace d)) := by
  refine ⟨by simp, Or.inr ?_⟩
  intro d hd
  rcases List.mem_cons.mp hd with h | h
  · subst h; simpa using hsp
  · have := List.mem_takeWhile_imp h
    simpa using this

theorem tokenizeAux_good (l : List Char) :
    ∀ t ∈ tokenizeAux l, goodToken t := by
  induction l using tokenizeAux.induct with
  | case1 => simp [tokenizeAux]
  | case2 c cs hsp ih =>
    intro t ht
    rw [tokenizeAux, if_pos hsp] at ht
    exact ih t ht
  | case3 c cs hsp hq sp rest hfc ih =>
    intro t ht
    rw [tokenizeAux, if_neg hsp, if_pos hq, hfc] at ht
    rcases List.mem_cons.mp ht with h | h
    · subst h
      obtain ⟨hne, hlast⟩ := findClose_last c cs sp rest hfc
      have hgl : (c :: sp).getLast? = some c := by
        cases sp with
        | nil => exact absurd rfl hne
        | cons d ds => rw [List.getLast?_cons_cons]; exact hlast
      refine ⟨by simp, Or.inl ⟨?_, ?_, ?_⟩⟩
      · rw [hgl]; rfl
      · rcases hq with h | h <;> rw [List.head?_cons, h] <;> simp
      · have := List.length_pos.mpr hne
        simp only [List.length_cons]
        omega
    · exact ih t h
  | case4 c cs hsp hq hfc ih =>
    intro t ht
    rw [tokenizeAux, if_neg hsp, if_pos hq, hfc] at ht
    rcases List.mem_cons.mp ht with h | h
    · subst h; exact run_goodToken c cs hsp
    · exact ih t h
  | case5 c cs hsp hq ih =>
    intro t ht
    rw [tokenizeAux, if_neg hsp, if_neg hq] at ht
    rcases List.mem_cons.mp ht with h | h
    · subst h; exact run_goodToken c cs hsp
    · exact ih t h

theorem tokenizeAux_no_quotes (l : List Char) :
    (∀ c ∈ l, c ≠ squote ∧ c ≠ dquote) → tokenizeAux l = splitNonSpace l := by
  induction l using tokenizeAux.induct with
  | case1 => intro _; simp [tokenizeAux, splitNonSpace]
  | case2 c cs hsp ih =>
    intro hnq
    rw [tokenizeAux, splitNonSpace, if_pos hsp, if_pos hsp]
    exact ih (fun d hd => hnq d (List.mem_cons_of_mem c hd))
  | case3 c cs hsp hq sp rest hfc ih =>
    intro hnq
    have := hnq c (List.mem_cons_self c cs)
    tauto
  | case4 c cs hsp hq hfc ih =>
    intro hnq
    have := hnq c (List.mem_cons_self c cs)
    tauto
  | case5 c cs hsp hq ih =>
    intro hnq
    rw [tokenizeAux, splitNonSpace, if_neg hsp, if_neg hsp, if_neg hq]
    congr 1
    refine ih (fun d hd => hnq d ?_)
    exact List.mem_cons_of_mem c ((List.dropWhile_sublist _).mem hd)

/-- Go `strings.Repeat(" ", n)`. -/
def spaces (n : Nat) : String := String.mk (List.replicate n ' ')

/-- Go `fmt.Printf("%-4s", s)` for ASCII `s`: left-justify in a field of
minimum width four, padding with spaces on the right. -/
def padTo4 (s : String) : String := s ++ spaces (4 - s.length)

/-- Go `strings.Join(elems, sep)`. -/
def joinWith (sep : String) : List String → String
  | [] => ""
  | [a] => a
  | a :: b :: rest => a ++ sep ++ joinWith sep (b :: rest)

/-- Lowercase hexadecimal digit. -/
def hexDigit (n : Nat) : Char :=
  if n < 10 then Char.ofNat (48 + n) else Char.ofNat (97 + (n - 10))

/-- Two lowercase hexadecimal digits of a byte. -/
def hexByte (b : Nat) : String :=
  String.mk [hexDigit (b / 16 % 16), hexDigit (b % 16)]

/-- Escaping of one byte inside Go `%q` / `strconv.Quote` output: the quote
and backslash are backslash-escaped, the named control escapes are used for
bell through carriage return, other printable ASCII bytes stand for
themselves, and remaining bytes are escaped as a lowercase hexadecimal
`\xhh` pair (Go prints printable multi-byte UTF-8 runes literally instead;
the byte strings reasoned about here are ASCII, where the two agree). -/
def quoteByte (b : Nat) : String :=
  if b = 34 then String.mk [Char.ofNat 92, dquote]
  else if b = 92 then String.mk [Char.ofNat 92, Char.ofNat 92]
  else if b = 7 then String.mk [Char.ofNat 92, 'a']
  else if b = 8 then String.mk [Char.ofNat 92, 'b']
  else if b = 9 then String.mk [Char.ofNat 92, 't']
  else if b = 10 then String.mk [Char.ofNat 92, 'n']
  else if b = 11 then String.mk [Char.ofNat 92, 'v']
  else if b = 12 then String.mk [Char.ofNat 92, 'f']
  else if b = 13 then String.mk [Char.ofNat 92, 'r']
  else if 32 ≤ b ∧ b ≤ 126 then String.mk [Char.ofNat b]
  else String.mk [Char.ofNat 92, 'x'] ++ hexByte b

/-- Body (between the added quotes) of Go `fmt.Printf("%q", bytes)`. -/
def quoteBody (bs : List Nat) : String := String.join (bs.map quoteByte)

/-- Go `fmt.Printf("%q", bytes)`: the escaped bytes wrapped in double
quotes. -/
def quoteBytes (bs : List Nat) : String :=
  String.mk [dquote] ++ quoteBody bs ++ String.mk [dquote]

/-- Go `fmt.Printf("%s", bytes)`: the bytes printed verbatim. -/
def bytesToStr (bs : List Nat) : String := String.mk (bs.map Char.ofNat)

/-- Output mode `stdMode` (redis-cli.go line 41, `iota` value 0). -/
def stdMode : Nat := 0

/-- Output mode `rawMode` (redis-cli.go line 42, `iota` value 1). -/
def rawMode : Nat := 1

/-- Reply value of one store command: the dynamic shapes inspected by the
type switches of `printStdReply` / `printRawReply` / `printInfo`
(`int64`, `string`, `[]byte`, `nil`, `redis.Error`, `[]interface` and the
default case, whose Go `%+v` rendering is carried as a string). -/
inductive Reply where
  | int (n : Int)
  | str (s : String)
  | bulk (bs : List Nat)
  | nought
  | fault (msg : String)
  | arr (elems : List Reply)
  | other (repr : String)

mutual

/-- Go `printStdReply` (redis-cli.go lines 246-275): standard-mode
rendering of one reply at a nesting level. -/
def printStdReply : Nat → Reply → String
  | _, Reply.int n => "(integer) " ++ toString n
  | _, Reply.str s => s
  | _, Reply.bulk bs => quoteBytes bs
  | _, Reply.nought => "(nil)"
  | _, Reply.fault m => "(error) " ++ m
  | level, Reply.arr es => printStdElems level 0 es.length es
  | _, Reply.other d => "Unknown reply type: " ++ d

/-- The `[]interface` loop of `printStdReply`: element `i` of `total` is
prefixed by `4*level` spaces when `i ≠ 0` and by the left-justified
`i+1) ` counter, rendered at `level+1`, and followed by a newline unless
last. -/
def printStdElems : Nat → Nat → Nat → List Reply → String
  | _, _, _, [] => ""
  | level, i, total, v :: rest =>
    (if i ≠ 0 then spaces (level * 4) else "") ++
      padTo4 (toString (i + 1) ++ ") ") ++
      printStdReply (level + 1) v ++
      (if i ≠ total - 1 then "\n" else "") ++
      printStdElems level (i + 1) total rest

end

mutual

/-- Go `printRawReply` (redis-cli.go lines 277-303): raw-mode rendering of
one reply at a nesting level. -/
def printRawReply : Nat → Reply → String
  | _, Reply.int n => toString n
  | _, Reply.str s => s
  | _, Reply.bulk bs => bytesToStr bs
  | _, Reply.nought => ""
  | _, Reply.fault m => m ++ "\n"
  | level, Reply.arr es => printRawElems level 0 es.length es
  | _, Reply.other d => "Unknown reply type: " ++ d

/-- The `[]interface` loop of `printRawReply`: element `i` of `total` is
prefixed by `4*level` spaces when `i ≠ 0`, rendered at `level+1`, and
followed by a newline unless last. -/
def printRawElems : Nat → Nat → Nat → List Reply → String
  | _, _, _, [] => ""
  | level, i, total, v :: rest =>
    (if i ≠ 0 then spaces (level * 4) else "") ++
      printRawReply (level + 1) v ++
      (if i ≠ total - 1 then "\n" else "") ++
      printRawElems level (i + 1) total rest

end

/-- Go `printReply` (redis-cli.go lines 234-244): mode dispatch, with the
standard renderer as the default branch. -/
def printReply (level : Nat) (reply : Reply) (mode : Nat) : String :=
  if mode = stdMode then printStdReply level reply
  else if mode = rawMode then printRawReply level reply
  else printStdReply level reply

/-- Go `printInfo` (redis-cli.go lines 224-232): a byte-string reply is
printed verbatim, an error reply as `(error) ` plus the message, and any
other shape prints nothing (the type switch has no other case). -/
def printInfo (reply : Reply) : String :=
  match reply with
  | Reply.bulk bs => bytesToStr bs
  | Reply.fault m => "(error) " ++ m
  | _ => ""

/-- Line contributed by element `i` of a standard-mode sequence rendering
at `level`: an indent of `4*level` spaces when the element is not the
first, the left-justified counter `i+1) `, and the element rendered at
`level+1`. -/
def stdLine (level i : Nat) (r : Reply) : String :=
  (if i ≠ 0 then spaces (level * 4) else "") ++
    padTo4 (toString (i + 1) ++ ") ") ++ printStdReply (level + 1) r

/-- Lines of a standard-mode sequence rendering, numbering from `i`. -/
def stdLines (level : Nat) : Nat → List Reply → List String
  | _, [] => []
  | i, r :: rest => stdLine level i r :: stdLines level (i + 1) rest

theorem printStdElems_join (level : Nat) (es : List Reply) :
    ∀ i, printStdElems level i (i + es.length) es =
      joinWith "\n" (stdLines level i es) := by
  induction es with
  | nil => intro i; simp [printStdElems, stdLines, joinWith]
  | cons v rest ih =>
    intro i
    cases rest with
    | nil =>
      simp [printStdElems, stdLines, joinWith, stdLine]
    | cons w ws =>
      have htot : i + (v :: w :: ws).length = (i + 1) + (w :: ws).length := by
        simp only [List.length_cons]; omega
      have hne : i ≠ (i + 1) + (w :: ws).length - 1 := by
        simp only [List.length_cons]; omega
      rw [printStdElems, htot, if_pos hne, ih (i + 1)]
      show stdLine level i v ++ "\n" ++ _ = _
      simp only [stdLines, joinWith, String.append_assoc]

/-- Line contributed by element `i` of a raw-mode sequence rendering at
`level`: an indent of `4*level` spaces when the element is not the first,
and the element rendered at `level+1`. -/
def rawLine (level i : Nat) (r : Reply) : String :=
  (if i ≠ 0 then spaces (level * 4) else "") ++ printRawReply (level + 1) r

/-- Lines of a raw-mode sequence rendering, indexed from `i`. -/
def rawLines (level : Nat) : Nat → List Reply → List String
  | _, [] => []
  | i, r :: rest => rawLine level i r :: rawLines level (i + 1) rest

theorem printRawElems_join (level : Nat) (es : List Reply) :
    ∀ i, printRawElems level i (i + es.length) es =
      joinWith "\n" (rawLines level i es) := by
  induction es with
  | nil => intro i; simp [printRawElems, rawLines, joinWith]
  | cons v rest ih =>
    intro i
    cases rest with
    | nil =>
      simp [printRawElems, rawLines, joinWith, rawLine]
    | cons w ws =>
      have htot : i + (v :: w :: ws).length = (i + 1) + (w :: ws).length := by
        simp only [List.length_cons]; omega
      have hne : i ≠ (i + 1) + (w :: ws).length - 1 := by
        simp only [List.length_cons]; omega
      rw [printRawElems, htot, if_pos hne, ih (i + 1)]
      show rawLine level i v ++ "\n" ++ _ = _
      simp only [rawLines, joinWith, String.append_assoc]

/-- The specification's example reply sequence `[1, "two", [3, nil]]`. -/
def exampleSeq : Reply :=
  Reply.arr [Reply.int 1, Reply.str "two",
    Reply.arr [Reply.int 3, Reply.nought]]

/-- Claim C2 (amended): in standard mode an integer reply renders as
`(integer) N`, a byte-string reply renders wrapped in double quotes with
its bytes escaped, a text-string reply renders as-is (unquoted), nil
renders as `(nil)`, and an error renders as `(error) ` plus its
message. -/
theorem std_scalar_rendering :
    (∀ (level : Nat) (n : Int),
      printStdReply level (Reply.int n) = "(integer) " ++ toString n) ∧
    (∀ (level : Nat) (s : String), printStdReply level (Reply.str s) = s) ∧
    (∀ (level : Nat) (bs : List Nat),
      printStdReply level (Reply.bulk bs) =
        String.mk [dquote] ++ quoteBody bs ++ String.mk [dquote]) ∧
    (∀ level : Nat, printStdReply level Reply.nought = "(nil)") ∧
    (∀ (level : Nat) (m : String),
      printStdReply level (Reply.fault m) = "(error) " ++ m) := by
  refine ⟨?_, ?_, ?_, ?_, ?_⟩ <;> intros <;>
    simp [printStdReply, quoteBytes, String.append_assoc]

/-- Claim C2 counterexample: a text-string (`string`) reply renders
unquoted in standard mode — `hi` renders as itself, which is not the
quoted form. -/
theorem std_text_string_unquoted_cex :
    printStdReply 0 (Reply.str "hi") = "hi" ∧ ("hi" : String) ≠ "\"hi\"" := by
  constructor
  · simp [printStdReply]
  · decide

/-- Claim C4: in standard mode a nested-sequence reply at nesting level L
renders as the newline-join of its elements' lines, where element `i`
carries the counter `i+1) ` left-justified to four columns, every
non-first element is preceded by an indent of `4*L` spaces, and each
element is rendered recursively at level `L+1`; consecutive elements are
newline-separated with no newline after the last.  The specification's
example sequence renders as a three-line numbered list whose third line
contains the nested sub-list indented by four spaces. -/
theorem std_nested_sequence_rendering :
    (∀ (level : Nat) (es : List Reply),
      printStdReply level (Reply.arr es) = joinWith "\n" (stdLines level 0 es)) ∧
    printStdReply 0 exampleSeq =
      "1)  (integer) 1\n2)  two\n3)  1)  (integer) 3\n    2)  (nil)" := by
  constructor
  · intro level es
    have h := printStdElems_join level es 0
    simp only [Nat.zero_add] at h
    simp only [printStdReply]
    exact h
  · simp [exampleSeq, printStdReply, printStdElems, padTo4, spaces]
    rfl

/-- Claim C5: in raw mode an integer renders as bare digits, a string
(text or bytes) renders unquoted, nil produces no output, an error renders
as its raw message followed by a newline, and a sequence renders its
elements recursively at `level+1`, non-first elements indented by
`4*level` spaces, newline-separated with no newline after the last.  The
example sequence renders with no `(nil)` placeholder and no decorations. -/
theorem raw_rendering :
    (∀ (level : Nat) (n : Int), printRawReply level (Reply.int n) = toString n) ∧
    (∀ (level : Nat) (s : String), printRawReply level (Reply.str s) = s) ∧
    (∀ (level : Nat) (bs : List Nat),
      printRawReply level (Reply.bulk bs) = bytesToStr bs) ∧
    (∀ level : Nat, printRawReply level Reply.nought = "") ∧
    (∀ (level : Nat) (m : String),
      printRawReply level (Reply.fault m) = m ++ "\n") ∧
    (∀ (level : Nat) (es : List Reply),
      printRawReply level (Reply.arr es) = joinWith "\n" (rawLines level 0 es)) ∧
    printRawReply 0 exampleSeq = "1\ntwo\n3\n    " := by
  refine ⟨?_, ?_, ?_, ?_, ?_, ?_, ?_⟩
  · intros; simp [printRawReply]
  · intros; simp [printRawReply]
  · intros; simp [printRawReply]
  · intros; simp [printRawReply]
  · intros; simp [printRawReply]
  · intro level es
    have h := printRawElems_join level es 0
    simp only [Nat.zero_add] at h
    simp only [printRawReply]
    exact h
  · simp [exampleSeq, printRawReply, printRawElems, spaces]
    rfl

/-- Decimal value of a digit list (most significant first). -/
def decimalVal (ds : List Char) : Nat :=
  ds.foldl (fun acc c => acc * 10 + (c.toNat - 48)) 0

/-- Whether Go `strconv.Atoi` accepts the string syntactically: an
optional sign followed by at least one decimal digit and nothing else. -/
def atoiSyntaxOk (s : String) : Bool :=
  match s.data with
  | [] => false
  | c :: cs =>
    let ds := if c = '+' ∨ c = '-' then cs else c :: cs
    !ds.isEmpty && ds.all (fun d => d.isDigit)

/-- Whether Go `strconv.Atoi` returns no error at all: valid syntax and a
value representable in a signed 64-bit integer. -/
def atoiOk (s : String) : Bool :=
  match s.data with
  | [] => false
  | c :: cs =>
    let neg := c = '-'
    let ds := if c = '+' ∨ c = '-' then cs else c :: cs
    !ds.isEmpty && ds.all (fun d => d.isDigit) &&
      (if neg then decide (decimalVal ds ≤ 2 ^ 63)
       else decide (decimalVal ds ≤ 2 ^ 63 - 1))

/-- Value component of Go `strconv.Atoi` (the assignment target of
`*dbn, _ = strconv.Atoi(cmds[1])`): 0 on a syntax error; on a range error
`ParseInt` returns the maximum-magnitude 64-bit value of the appropriate
sign (`1<<63 - 1` or `-1<<63`); otherwise the parsed integer. -/
def atoiVal (s : String) : Int :=
  match s.data with
  | [] => 0
  | c :: cs =>
    let neg := c = '-'
    let ds := if c = '+' ∨ c = '-' then cs else c :: cs
    if ds.isEmpty || !ds.all (fun d => d.isDigit) then 0
    else
      let n : Int := (decimalVal ds : Int)
      if neg then (if n > 2 ^ 63 then -(2 ^ 63) else -n)
      else (if n > 2 ^ 63 - 1 then 2 ^ 63 - 1 else n)

/-- Outcome of `client.Do(ctx, cmd, arg).Result()`: either a reply value
with no error, or a store-reported error message. -/
inductive StoreResp where
  | ok (r : Reply)
  | fail (msg : String)

/-- Whether the store reported no error. -/
def StoreResp.isOk : StoreResp → Bool
  | StoreResp.ok _ => true
  | StoreResp.fail _ => false

/-- Observable result of one `cliSendCommand` call that returns normally:
the returned sentinel, the value of `*dbn` afterwards, the
`(command, argument)` pair handed to `client.Do` (if any), and the text
printed. -/
structure SendRes where
  ret : Int
  dbn : Int
  sent : Option (String × String)
  out : String

/-- Control outcome of one `cliSendCommand` call: `procExit` models
`os.Exit` inside `cliConnect` when the liveness probe fails (no command is
sent); `oobPanic` models the Go runtime panic of the out-of-bounds
`cmds[1]` read; `res` is a normal return. -/
inductive SendOutcome where
  | procExit (code : Int)
  | oobPanic
  | res (r : SendRes)

/-- Go `cliSendCommand` (redis-cli.go lines 142-172), with the nil-client
`cliConnect` probe modelled by `probeOk` and the store's response to the
single issued request modelled by `resp`.  Quirks kept faithfully from the
source: only the lowercased first token plus one empty-string argument are
handed to `client.Do` (the remaining tokens are discarded); on a
successful `select` the database index is read from `cmds[1]` with no
length check (Go panics when the token is absent) and parsed with
`strconv.Atoi`, whose error is discarded. -/
def cliSendCommand (probeOk : Bool) (mode : Nat) (dbn : Int)
    (cmds : List String) (resp : StoreResp) : SendOutcome :=
  if !probeOk then SendOutcome.procExit 1
  else
    match cmds with
    | [] => SendOutcome.res ⟨0, dbn, none, ""⟩
    | c0 :: rest =>
      let cmd := toLowerStr c0
      let arg := ""
      match resp with
      | StoreResp.fail m =>
        SendOutcome.res ⟨-1, dbn, some (cmd, arg), "(error) " ++ m ++ "\n"⟩
      | StoreResp.ok r =>
        let out := (if cmd = "info" then printInfo r
          else printReply 0 r mode) ++ "\n"
        if toLowerStr cmd = "select" then
          match rest.head? with
          | none => SendOutcome.oobPanic
          | some a => SendOutcome.res ⟨0, atoiVal a, some (cmd, arg), out⟩
        else SendOutcome.res ⟨0, dbn, some (cmd, arg), out⟩

/-- Go `noninteractive` (redis-cli.go lines 220-222): the whole positional
argument list is passed on to `cliSendCommand`. -/
def noninteractive (probeOk : Bool) (mode : Nat) (dbn : Int)
    (args : List String) (resp : StoreResp) : SendOutcome :=
  cliSendCommand probeOk mode dbn args resp

/-- POSIX exit status of the process for each outcome: `os.Exit` truncates
the status to its low byte, and a Go runtime panic exits with status 2. -/
def exitStatus : SendOutcome → Nat
  | SendOutcome.procExit c => (c.emod 256).toNat
  | SendOutcome.oobPanic => 2
  | SendOutcome.res r => (r.ret.emod 256).toNat

/-- Message printed by `switchMode` on invalid arguments. -/
def modeErrMsg : String := "invalid args. Should be MODE [raw|std]"

/-- Go `switchMode` (redis-cli.go lines 188-208) as a function from the
current mode and the argument tokens after `mode` to the new mode and the
error message printed, if any. -/
def switchMode (mode : Nat) (args : List String) : Nat × Option String :=
  if args.length ≠ 1 then (mode, some modeErrMsg)
  else
    let m := toLowerStr (args.headD "")
    if m ≠ "raw" ∧ m ≠ "std" then (mode, some modeErrMsg)
    else if m = "std" then (stdMode, none)
    else if m = "raw" then (rawMode, none)
    else (mode, none)

/-- The masking step of Go `appendHistory` (redis-cli.go lines 125-140),
acting on its copy of the tokens: a two-token `auth` command
(case-insensitive name) gets its second token replaced by `******`, and a
four-token `connect` command its fourth. -/
def maskCmds (cmds : List String) : List String :=
  let c1 := if cmds.length = 2 ∧ toLowerStr (cmds.headD "") = "auth"
    then cmds.set 1 "******" else cmds
  if c1.length = 4 ∧ toLowerStr (c1.headD "") = "connect"
    then c1.set 3 "******" else c1

/-- The history entry appended by `appendHistory`:
`strings.Join(cloneCmds, " ")` after masking. -/
def historyEntry (cmds : List String) : String := joinWith " " (maskCmds cmds)

/-- Claim C6: every token the REPL tokenizer produces is a single-quoted
span, a double-quoted span (quote characters retained, no de-quoting), or
a run of non-whitespace characters; on a line with no quote characters the
tokens are exactly the maximal runs of non-whitespace characters; and
tokenizing the line `SET key "hello world"` yields exactly three tokens,
the third retaining its enclosing double quotes. -/
theorem tokenizer_token_shape :
    ∀ (l t : List Char),
      (t ∈ tokenizeAux l → goodToken t) ∧
      ((∀ c ∈ l, c ≠ squote ∧ c ≠ dquote) →
        tokenizeAux l = splitNonSpace l) ∧
      tokenizeAux ("SET key \"hello world\"".data) =
        ["SET".data, "key".data, "\"hello world\"".data] ∧
      tokenize "SET key \"hello world\"" = ["SET", "key", "\"hello world\""] := by
  intro l t
  refine ⟨fun ht => tokenizeAux_good l t ht, fun h => tokenizeAux_no_quotes l h,
    ?_, ?_⟩
  · simp [tokenizeAux, findClose, isGoSpace, squote, dquote]
  · simp [tokenize, tokenizeAux, findClose, isGoSpace, squote, dquote]

theorem tokenizer_token_shape_witness :
    goodToken ("SET".data) ∧
    tokenizeAux ("ab cd".data) = splitNonSpace ("ab cd".data) := by
  constructor
  · refine (tokenizer_token_shape ("SET key \"hello world\"".data) ("SET".data)).1 ?_
    rw [(tokenizer_token_shape [] []).2.2.1]
    simp
  · exact (tokenizer_token_shape ("ab cd".data) []).2.1 (by decide)

/-- Claim C3: a two-token command whose first token is `auth`
(case-insensitive) has its second token replaced by the fixed mask
`******` before being appended to history, and a four-token command whose
first token is `connect` has its fourth token so masked; in particular
`auth mypassword` is stored as `auth ******`, never revealing the
password. -/
theorem history_password_masking :
    ∀ (a b c p : String),
      (toLowerStr a = "auth" → maskCmds [a, p] = [a, "******"] ∧
        historyEntry [a, p] = a ++ " ******") ∧
      (toLowerStr a = "connect" →
        maskCmds [a, b, c, p] = [a, b, c, "******"]) ∧
      historyEntry ["auth", "mypassword"] = "auth ******" := by
  intro a b c p
  refine ⟨fun ha => ?_, fun hc => ?_, by decide⟩
  · have hm : maskCmds [a, p] = [a, "******"] := by
      simp [maskCmds, ha]
    refine ⟨hm, ?_⟩
    rw [historyEntry, hm]
    show a ++ " " ++ "******" = a ++ " ******"
    rw [String.append_assoc]
    rfl
  · simp [maskCmds, hc]

theorem history_password_masking_witness :
    maskCmds ["auth", "mypassword"] = ["auth", "******"] ∧
    maskCmds ["connect", "h", "6379", "pw"] = ["connect", "h", "6379", "******"] := by
  exact ⟨((history_password_masking "auth" "x" "y" "mypassword").1 (by decide)).1,
    (history_password_masking "connect" "h" "6379" "pw").2.1 (by decide)⟩

/-- Claim C7: a single `raw` or `std` argument (case-insensitive) to the
`mode` meta-command sets the session rendering mode and prints no error;
any other argument list — wrong count or any other word — prints the usage
error and leaves the mode unchanged. -/
theorem mode_switch_behaviour :
    ∀ (mode : Nat) (args : List String) (a : String),
      (args = [a] → toLowerStr a = "raw" →
        switchMode mode args = (rawMode, none)) ∧
      (args = [a] → toLowerStr a = "std" →
        switchMode mode args = (stdMode, none)) ∧
      (args.length ≠ 1 → switchMode mode args = (mode, some modeErrMsg)) ∧
      (args = [a] → toLowerStr a ≠ "raw" → toLowerStr a ≠ "std" →
        switchMode mode args = (mode, some modeErrMsg)) := by
  intro mode args a
  refine ⟨fun he hr => ?_, fun he hs => ?_, fun hl => ?_, fun he hr hs => ?_⟩
  · subst he; simp [switchMode, hr]
  · subst he; simp [switchMode, hs]
  · simp [switchMode, hl]
  · subst he; simp [switchMode, hr, hs]

theorem mode_switch_behaviour_witness :
    switchMode stdMode ["RAW"] = (rawMode, none) ∧
    switchMode rawMode ["xyz"] = (rawMode, some modeErrMsg) ∧
    switchMode stdMode [] = (stdMode, some modeErrMsg) := by
  exact ⟨(mode_switch_behaviour stdMode ["RAW"] "RAW").1 rfl (by decide),
    (mode_switch_behaviour rawMode ["xyz"] "xyz").2.2.2 rfl (by decide) (by decide),
    (mode_switch_behaviour stdMode [] "").2.2.1 (by decide)⟩

/-- Claim C1, evaluated at the failing input (the code, against the
specification's stated intent, discards every token after the first): the
non-interactive dispatch of `set key value` hands `client.Do` only the
lowercased first token plus a single empty-string argument, so the tokens
`key` and `value` are never sent; the reply is still printed through the
shared renderer followed by a blank line. -/
theorem noninteractive_drops_trailing_tokens :
    noninteractive true stdMode 0 ["set", "key", "value"]
        (StoreResp.ok (Reply.str "OK")) =
      SendOutcome.res ⟨0, 0, some ("set", ""), "OK\n"⟩ := by
  have hout : printReply 0 (Reply.str "OK") stdMode = "OK" := by
    simp [printReply, stdMode, printStdReply]
  simp [noninteractive, cliSendCommand, hout, toLowerStr]

/-- Claim C8: when the liveness probe fails the process exits with status
1 before any command is attempted; with a live connection and a non-empty
command that does not hit the out-of-bounds `select` read, `cliSendCommand`
returns 0 exactly when the store reports no error and -1 exactly when it
reports one, and the -1 sentinel maps to a non-zero process exit
status. -/
theorem exit_code_mapping :
    ∀ (probeOk : Bool) (mode : Nat) (dbn : Int) (cmds : List String)
      (resp : StoreResp),
      (probeOk = false →
        noninteractive probeOk mode dbn cmds resp = SendOutcome.procExit 1) ∧
      (probeOk = true → cmds ≠ [] →
        (toLowerStr (toLowerStr (cmds.headD "")) = "select" → 2 ≤ cmds.length) →
        ∃ r, noninteractive probeOk mode dbn cmds resp = SendOutcome.res r ∧
          (r.ret = 0 ↔ resp.isOk = true) ∧
          (r.ret = -1 ↔ resp.isOk = false) ∧
          (exitStatus (SendOutcome.res r) = 0 ↔ resp.isOk = true)) := by
  intro probeOk mode dbn cmds resp
  constructor
  · intro hp
    subst hp
    simp [noninteractive, cliSendCommand]
  · intro hp hne hsel
    subst hp
    cases cmds with
    | nil => exact absurd rfl hne
    | cons c0 rest =>
      cases resp with
      | fail m =>
        refine ⟨⟨-1, dbn, some (toLowerStr c0, ""), "(error) " ++ m ++ "\n"⟩,
          ?_, ?_, ?_, ?_⟩
        · simp [noninteractive, cliSendCommand]
        · simp [StoreResp.isOk]
        · simp [StoreResp.isOk]
        · simp [StoreResp.isOk, exitStatus]
          decide
      | ok r0 =>
        by_cases hs : toLowerStr (toLowerStr c0) = "select"
        · have hlen : 2 ≤ (c0 :: rest).length := hsel (by simpa using hs)
          cases rest with
          | nil => simp at hlen
          | cons a rest2 =>
            refine ⟨⟨0, atoiVal a, some (toLowerStr c0, ""),
              (if toLowerStr c0 = "info" then printInfo r0
                else printReply 0 r0 mode) ++ "\n"⟩, ?_, ?_, ?_, ?_⟩
            · simp [noninteractive, cliSendCommand, hs]
            · simp [StoreResp.isOk]
            · simp [StoreResp.isOk]
            · simp [StoreResp.isOk, exitStatus]
              decide
        · refine ⟨⟨0, dbn, some (toLowerStr c0, ""),
            (if toLowerStr c0 = "info" then printInfo r0
              else printReply 0 r0 mode) ++ "\n"⟩, ?_, ?_, ?_, ?_⟩
          · simp [noninteractive, cliSendCommand, hs]
          · simp [StoreResp.isOk]
          · simp [StoreResp.isOk]
          · simp [StoreResp.isOk, exitStatus]
            decide

theorem exit_code_mapping_witness :
    noninteractive false stdMode 0 ["get", "k"] (StoreResp.ok Reply.nought) =
      SendOutcome.procExit 1 ∧
    (∃ r, noninteractive true stdMode 0 ["get", "k"] (StoreResp.fail "boom") =
        SendOutcome.res r ∧
      (r.ret = 0 ↔ (StoreResp.fail "boom").isOk = true) ∧
      (r.ret = -1 ↔ (StoreResp.fail "boom").isOk = false) ∧
      (exitStatus (SendOutcome.res r) = 0 ↔ (StoreResp.fail "boom").isOk = true)) := by
  exact ⟨(exit_code_mapping false stdMode 0 ["get", "k"]
      (StoreResp.ok Reply.nought)).1 rfl,
    (exit_code_mapping true stdMode 0 ["get", "k"] (StoreResp.fail "boom")).2
      rfl (by decide) (by decide)⟩

/-- Claim C9 (amended): when a forwarded `select` command (case-insensitive
first token) succeeds at the store, the selected-database index becomes
the value component of `strconv.Atoi` on the second token — 0 when the
token is not a syntactically valid integer, the clamped 64-bit extreme
when it is valid but out of range, and the parsed integer otherwise — the
parse error being discarded, not validated; when the store reports an
error, the index is unchanged. -/
theorem select_dbn_update :
    ∀ (mode : Nat) (dbn : Int) (c0 a s m : String) (rest : List String)
      (r0 : Reply),
      (toLowerStr c0 = "select" → rest.head? = some a →
        ∃ out, cliSendCommand true mode dbn (c0 :: rest) (StoreResp.ok r0) =
          SendOutcome.res ⟨0, atoiVal a, some ("select", ""), out⟩) ∧
      (toLowerStr c0 = "select" →
        ∃ out, cliSendCommand true mode dbn (c0 :: rest) (StoreResp.fail m) =
          SendOutcome.res ⟨-1, dbn, some ("select", ""), out⟩) ∧
      (atoiSyntaxOk s = false → atoiVal s = 0) := by
  intro mode dbn c0 a s m rest r0
  refine ⟨fun hc ha => ?_, fun hc => ?_, fun hs => ?_⟩
  · refine ⟨(if toLowerStr c0 = "info" then printInfo r0
      else printReply 0 r0 mode) ++ "\n", ?_⟩
    have hss : toLowerStr "select" = "select" := by decide
    simp [cliSendCommand, hc, ha, hss]
  · exact ⟨"(error) " ++ m ++ "\n", by simp [cliSendCommand, hc]⟩
  · rw [atoiVal]
    rw [atoiSyntaxOk] at hs
    cases hd : s.data with
    | nil => rfl
    | cons c cs =>
      rw [hd] at hs
      simp only [hd]
      by_cases hsg : c = '+' ∨ c = '-'
      · simp only [if_pos hsg] at hs ⊢
        simp only [Bool.and_eq_false_iff] at hs  -- hs : !isEmpty && all = false
        rcases hs with h | h
        · simp [Bool.not_eq_false] at h  -- isEmpty = true
          simp [h]
        · simp [h]
      · simp only [if_neg hsg] at hs ⊢
        simp only [Bool.and_eq_false_iff] at hs
        rcases hs with h | h
        · simp [Bool.not_eq_false] at h
        · simp [h]

/-- Claim C9 counterexample: `select 99999999999999999999` succeeding at
the store sets the database index to the clamped extreme
9223372036854775807, not 0, although `strconv.Atoi` reports an error for
that token (value out of the 64-bit range). -/
theorem select_dbn_update_cex :
    cliSendCommand true stdMode 5 ["select", "99999999999999999999"]
        (StoreResp.ok (Reply.str "OK")) =
      SendOutcome.res ⟨0, 9223372036854775807, some ("select", ""), "OK\n"⟩ ∧
    atoiOk "99999999999999999999" = false ∧
    (9223372036854775807 : Int) ≠ 0 := by
  refine ⟨?_, by decide, by decide⟩
  have hval : atoiVal "99999999999999999999" = 9223372036854775807 := by decide
  have hout : printReply 0 (Reply.str "OK") stdMode = "OK" := by
    simp [printReply, stdMode, printStdReply]
  simp [cliSendCommand, hval, hout, toLowerStr]

theorem select_dbn_update_witness :
    (∃ out, cliSendCommand true stdMode 0 ["SELECT", "2"]
        (StoreResp.ok (Reply.str "OK")) =
      SendOutcome.res ⟨0, atoiVal "2", some ("select", ""), out⟩) ∧
    (∃ out, cliSendCommand true stdMode 7 ["select", "2"]
        (StoreResp.fail "ERR wrongpass") =
      SendOutcome.res ⟨-1, 7, some ("select", ""), out⟩) ∧
    atoiVal "abc" = 0 := by
  refine ⟨(select_dbn_update stdMode 0 "SELECT" "2" "abc" "ERR wrongpass" ["2"]
      (Reply.str "OK")).1 (by decide) rfl,
    (select_dbn_update stdMode 7 "select" "2" "abc" "ERR wrongpass" ["2"]
      (Reply.str "OK")).2.1 (by decide),
    (select_dbn_update stdMode 0 "SELECT" "2" "abc" "m" ["2"]
      (Reply.str "OK")).2.2 (by decide)⟩

/-- Claim C10: the `cmds[1]` read on the `select` success path is guarded
only by the command name and the absence of a store error, not by the
token-list length: a single-token `select` whose request succeeds reaches
the out-of-bounds access (a Go runtime panic), while any token list with
at least two tokens, any other command word, and any store-error response
never reach it. -/
theorem select_oob_read :
    ∀ (mode : Nat) (dbn : Int) (cmds : List String) (resp : StoreResp)
      (r0 : Reply) (m : String),
      (cliSendCommand true mode dbn ["select"] (StoreResp.ok r0) =
        SendOutcome.oobPanic) ∧
      (2 ≤ cmds.length →
        cliSendCommand true mode dbn cmds resp ≠ SendOutcome.oobPanic) ∧
      (toLowerStr (toLowerStr (cmds.headD "")) ≠ "select" →
        cliSendCommand true mode dbn cmds resp ≠ SendOutcome.oobPanic) ∧
      (resp = StoreResp.fail m →
        cliSendCommand true mode dbn cmds resp ≠ SendOutcome.oobPanic) := by
  intro mode dbn cmds resp r0 m
  have hss : toLowerStr (toLowerStr "select") = "select" := by decide
  refine ⟨?_, fun hlen => ?_, fun hsel => ?_, fun hresp => ?_⟩
  · simp [cliSendCommand, hss]
  · cases cmds with
    | nil => simp at hlen
    | cons c0 rest =>
      cases rest with
      | nil => simp at hlen
      | cons a rest2 =>
        cases resp with
        | fail m2 => simp [cliSendCommand]
        | ok r1 =>
          by_cases hs : toLowerStr (toLowerStr c0) = "select" <;>
            simp [cliSendCommand, hs]
  · cases cmds with
    | nil => simp [cliSendCommand]
    | cons c0 rest =>
      cases resp with
      | fail m2 => simp [cliSendCommand]
      | ok r1 =>
        simp only [List.headD_cons] at hsel
        simp [cliSendCommand, hsel]
  · subst hresp
    cases cmds with
    | nil => simp [cliSendCommand]
    | cons c0 rest => simp [cliSendCommand]

theorem select_oob_read_witness :
    (cliSendCommand true stdMode 0 ["select"] (StoreResp.ok (Reply.str "OK")) =
      SendOutcome.oobPanic) ∧
    cliSendCommand true stdMode 0 ["select", "2"]
      (StoreResp.ok (Reply.str "OK")) ≠ SendOutcome.oobPanic ∧
    cliSendCommand true stdMode 0 ["get"]
      (StoreResp.ok (Reply.str "v")) ≠ SendOutcome.oobPanic ∧
    cliSendCommand true stdMode 0 ["select"]
      (StoreResp.fail "ERR wrong number of arguments") ≠ SendOutcome.oobPanic := by
  refine ⟨(select_oob_read stdMode 0 ["select", "2"]
      (StoreResp.ok (Reply.str "OK")) (Reply.str "OK") "x").1,
    (select_oob_read stdMode 0 ["select", "2"]
      (StoreResp.ok (Reply.str "OK")) (Reply.str "OK") "x").2.1 (by decide),
    (select_oob_read stdMode 0 ["get"]
      (StoreResp.ok (Reply.str "v")) (Reply.str "v") "x").2.2.1 (by decide),
    (select_oob_read stdMode 0 ["select"]
      (StoreResp.fail "ERR wrong number of arguments") Reply.nought
      "ERR wrong number of arguments").2.2.2 rfl⟩
